import Mathlib

/-!
Verification of the tab-vault capture-enrichment pipeline.

This file gives a shallow embedding, in Lean, of the JavaScript source of the
capture pipeline (scraper author extraction, source-platform detection, AI
response parsing, embedding-text composition, and the `processCapture`
orchestrator) and proves or refutes the frozen specification claims about it.

Modelling conventions:
* JS strings are Lean `String`s; JS `null`/`undefined` is `Option.none`.
* JS truthiness of a string value (`null`, `undefined` and `""` are falsy)
  is `jsTruthy`.
* Machine floating point does not occur in any claim-relevant path; JSON
  numbers are modelled as exact decimals `m * 10 ^ e`.
* Every external call (network fetch, AI backend, embedding backend, the
  Supabase store) is an oracle recorded in an `Env` record; a call that
  throws is the oracle returning `none`.
* Lean `String.length`/`take` count codepoints while JS counts UTF-16 units;
  identical on the BMP strings that occur here.
-/

namespace TabVault

/-- Opening brace character (written via its code point). -/
def lbrace : Char := Char.ofNat 123

/-- Closing brace character (written via its code point). -/
def rbrace : Char := Char.ofNat 125

/-- JS truthiness for a nullable string: `null`/`undefined` and `""` are falsy. -/
def jsTruthy : Option String → Bool
  | none => false
  | some s => s ≠ ""

/-- JS `s.slice(0, n)` for a non-negative bound. -/
def jsSlice (s : String) (n : Nat) : String :=
  (s.toList.take n).asString

/-- The whitespace class of the JS `\s` regex escape (the members relevant to
    the scraped text that occurs here). -/
def isWsChar (c : Char) : Bool :=
  c = ' ' ∨ c = '\t' ∨ c = '\n' ∨ c = '\r' ∨ c = '\x0b' ∨ c = '\x0c'

/-- Index of the first occurrence of `pat` in `cs`, if any. -/
def findSubIdx (pat : List Char) : List Char → Option Nat
  | [] => if pat.isEmpty then some 0 else none
  | c :: cs =>
    if pat.isPrefixOf (c :: cs) then some 0
    else (findSubIdx pat cs).map (· + 1)

/-- JS `String.prototype.replace` with a plain-string pattern: replaces the
    first occurrence only. -/
def replaceFirst (s pat repl : String) : String :=
  match findSubIdx pat.toList s.toList with
  | none => s
  | some i =>
    ((s.toList.take i) ++ repl.toList ++ (s.toList.drop (i + pat.length))).asString

/-- `s.startsWith p`, computed on the character list. -/
def strStartsWith (s p : String) : Bool := p.toList.isPrefixOf s.toList

/-- `s.endsWith p`, computed on the character list. -/
def strEndsWith (s p : String) : Bool := p.toList.isSuffixOf s.toList

/-- `s.toLowerCase()` for the ASCII range. -/
def strToLower (s : String) : String := (s.toList.map Char.toLower).asString

/-- `s.slice(n)`, computed on the character list. -/
def strDrop (s : String) (n : Nat) : String := (s.toList.drop n).asString

/-- `parts.join(sep)`. -/
def joinWith (sep : String) : List String → String
  | [] => ""
  | [x] => x
  | x :: xs => x ++ sep ++ joinWith sep xs

/-- `s.split(sep)` for a single-character separator, on character lists. -/
def splitOnChar (sep : Char) : List Char → List (List Char)
  | [] => [[]]
  | c :: cs =>
    let r := splitOnChar sep cs
    if c = sep then [] :: r
    else
      match r with
      | [] => [[c]]
      | g :: gs => (c :: g) :: gs

/-- JS `replace(/pat/g, repl)` for a literal pattern: every non-overlapping
    occurrence, scanning left to right (fuel-indexed; one unit of fuel
    consumes at least one character). -/
def replaceAllL (pat repl : List Char) : Nat → List Char → List Char
  | 0, cs => cs
  | _ + 1, [] => []
  | fuel + 1, c :: cs =>
    if ¬pat.isEmpty ∧ pat.isPrefixOf (c :: cs) then
      repl ++ replaceAllL pat repl fuel ((c :: cs).drop pat.length)
    else c :: replaceAllL pat repl fuel cs

/-- JS `s.replace(/pat/g, repl)` for a literal pattern. -/
def replaceAll (s pat repl : String) : String :=
  (replaceAllL pat.toList repl.toList (s.length + 1) s.toList).asString

/-! ## JSON values and parsing

The AI service extracts a JSON block from the model response with the regex
`/\{[\s\S]*\}/` and feeds it to `JSON.parse`.  `JsonVal` is the value
universe; `parseJsonText` models `JSON.parse` (strict JSON grammar; a string
escape `\uXXXX` denoting a lone surrogate is mapped to the default char). -/

inductive JsonVal where
  | jnull : JsonVal
  | jbool : Bool → JsonVal
  | jnum : Int → Int → JsonVal     -- value `m * 10 ^ e`, an exact decimal
  | jstr : String → JsonVal
  | jarr : List JsonVal → JsonVal
  | jobj : List (String × JsonVal) → JsonVal

open JsonVal

/-- Drop leading JSON whitespace. -/
def skipWs : List Char → List Char
  | [] => []
  | c :: cs => if c = ' ' ∨ c = '\t' ∨ c = '\n' ∨ c = '\r' then skipWs cs else c :: cs

/-- Hex digit value. -/
def hexVal (c : Char) : Option Nat :=
  if '0' ≤ c ∧ c ≤ '9' then some (c.toNat - '0'.toNat)
  else if 'a' ≤ c ∧ c ≤ 'f' then some (c.toNat - 'a'.toNat + 10)
  else if 'A' ≤ c ∧ c ≤ 'F' then some (c.toNat - 'A'.toNat + 10)
  else none

/-- Parse the body of a JSON string literal (after the opening quote),
    returning the decoded characters and the input after the closing quote
    (fuel-indexed; one unit of fuel consumes at least one character). -/
def parseStrChars : Nat → List Char → Option (List Char × List Char)
  | 0, _ => none
  | _ + 1, [] => none
  | _ + 1, '"' :: rest => some ([], rest)
  | fuel + 1, '\\' :: esc =>
    match esc with
    | 'u' :: h1 :: h2 :: h3 :: h4 :: rest =>
      match hexVal h1, hexVal h2, hexVal h3, hexVal h4 with
      | some a, some b, some c, some d =>
        (parseStrChars fuel rest).map fun (s, r) =>
          (Char.ofNat (((a * 16 + b) * 16 + c) * 16 + d) :: s, r)
      | _, _, _, _ => none
    | c :: rest =>
      let dec : Option Char :=
        if c = '"' then some '"'
        else if c = '\\' then some '\\'
        else if c = '/' then some '/'
        else if c = 'b' then some '\x08'
        else if c = 'f' then some '\x0c'
        else if c = 'n' then some '\n'
        else if c = 'r' then some '\r'
        else if c = 't' then some '\t'
        else none
      match dec with
      | some d => (parseStrChars fuel rest).map fun (s, r) => (d :: s, r)
      | none => none
    | [] => none
  | fuel + 1, c :: rest =>
    if c.toNat < 32 then none
    else (parseStrChars fuel rest).map fun (s, r) => (c :: s, r)

/-- Digits of a number literal. -/
def takeDigits (cs : List Char) : List Char × List Char :=
  (cs.takeWhile Char.isDigit, cs.dropWhile Char.isDigit)

/-- Numeric value of a digit string. -/
def digitsToNat (ds : List Char) : Nat :=
  ds.foldl (fun acc c => acc * 10 + (c.toNat - '0'.toNat)) 0

/-- Parse a JSON number literal (strict grammar: no leading zeros, nonempty
    integer/fraction/exponent digit groups), as an exact decimal. -/
def parseNumber (cs : List Char) : Option (JsonVal × List Char) :=
  let (sign, cs1) : Int × List Char :=
    match cs with
    | '-' :: r => (-1, r)
    | _ => (1, cs)
  let (ds, cs2) := takeDigits cs1
  if ds.isEmpty then none
  else if ds.head? = some '0' ∧ ds.length > 1 then none
  else
    let (fds, cs3) :=
      match cs2 with
      | '.' :: r =>
        let (f, r') := takeDigits r
        (f, r')
      | _ => ([], cs2)
    if cs2.head? = some '.' ∧ fds.isEmpty then none
    else
      match cs3 with
      | 'e' :: r | 'E' :: r =>
        let esign : Int := if r.head? = some '-' then -1 else 1
        let r1 := if r.head? = some '-' ∨ r.head? = some '+' then r.tail else r
        let (eds, r2) := takeDigits r1
        if eds.isEmpty then none
        else
          some (jnum (sign * (digitsToNat (ds ++ fds) : Int))
                     (esign * (digitsToNat eds : Int) - (fds.length : Int)), r2)
      | _ =>
        some (jnum (sign * (digitsToNat (ds ++ fds) : Int)) (-(fds.length : Int)), cs3)

/-- Parse one JSON value (fuel-indexed: one unit of fuel per node, plus one
    per element/field continuation).  The continuation of an array or object
    after a comma is parsed by re-entering the same function behind a
    synthetic opening bracket, keeping the recursion structural on the fuel;
    a trailing comma is rejected first, as `JSON.parse` does. -/
def parseVal : Nat → List Char → Option (JsonVal × List Char)
  | 0, _ => none
  | fuel + 1, cs =>
    match skipWs cs with
    | [] => none
    | 'n' :: 'u' :: 'l' :: 'l' :: rest => some (jnull, rest)
    | 't' :: 'r' :: 'u' :: 'e' :: rest => some (jbool true, rest)
    | 'f' :: 'a' :: 'l' :: 's' :: 'e' :: rest => some (jbool false, rest)
    | '"' :: rest =>
      (parseStrChars (rest.length + 1) rest).map fun (s, r) => (jstr s.asString, r)
    | c :: rest =>
      if c = '[' then
        match skipWs rest with
        | ']' :: r => some (jarr [], r)
        | r =>
          match parseVal fuel r with
          | none => none
          | some (v, r1) =>
            match skipWs r1 with
            | ',' :: r2 =>
              if (skipWs r2).head? = some ']' then none
              else
                match parseVal fuel ('[' :: r2) with
                | some (jarr xs, r3) => some (jarr (v :: xs), r3)
                | _ => none
            | ']' :: r2 => some (jarr [v], r2)
            | _ => none
      else if c = lbrace then
        match skipWs rest with
        | r =>
          if r.head? = some rbrace then some (jobj [], r.tail)
          else
            match r with
            | '"' :: rk =>
              match parseStrChars (rk.length + 1) rk with
              | none => none
              | some (k, r1) =>
                match skipWs r1 with
                | ':' :: r2 =>
                  match parseVal fuel r2 with
                  | none => none
                  | some (v, r3) =>
                    match skipWs r3 with
                    | ',' :: r4 =>
                      if (skipWs r4).head? = some rbrace then none
                      else
                        match parseVal fuel (lbrace :: r4) with
                        | some (jobj fs, r5) => some (jobj ((k.asString, v) :: fs), r5)
                        | _ => none
                    | r4 =>
                      if r4.head? = some rbrace then
                        some (jobj [(k.asString, v)], r4.tail)
                      else none
                | _ => none
            | _ => none
      else if c = '-' ∨ c.isDigit then parseNumber (c :: rest)
      else none

/-- `JSON.parse`: parse a complete JSON document. -/
def parseJsonText (s : String) : Option JsonVal :=
  match parseVal (2 * s.length + 2) s.toList with
  | some (v, rest) => if (skipWs rest).isEmpty then some v else none
  | none => none

/-- JS property access `obj[k]` on a parsed JSON value: `undefined` (`none`)
    unless the value is an object with the field; for duplicate keys JS keeps
    the last occurrence. -/
def getField (v : JsonVal) (k : String) : Option JsonVal :=
  match v with
  | jobj fs => (fs.filter (fun f => f.1 = k)).getLast?.map (·.2)
  | _ => none

/-! ## AI response parsing (`categorize` and `score` in the AI service)

Both functions run `response.content.match(/\{[\s\S]*\}/)` — the greedy match
spanning from the first opening brace to the last closing brace — and
`JSON.parse` the result; any failure falls back to a safe default. -/

/-- The substring matched by `/\{[\s\S]*\}/`: from the first `{` to the last
    `}` (which must come after it), or no match. -/
def extractJsonBlock (s : String) : Option String :=
  let cs := s.toList
  match cs.findIdx? (· = lbrace) with
  | none => none
  | some i =>
    match (cs.reverse.findIdx? (· = rbrace)).map (fun r => cs.length - 1 - r) with
    | none => none
    | some j =>
      if i < j then some (((cs.drop i).take (j - i + 1)).asString) else none

/-- The regex-extract-then-`JSON.parse` step shared by `categorize` and
    `score`: `none` exactly when no well-formed JSON object can be obtained
    from the response. -/
def jsonFromResponse (resp : String) : Option JsonVal :=
  (extractJsonBlock resp).bind parseJsonText

/-- The object `{ category: 'reference', tags: [] }` returned by `categorize`
    when parsing the model response fails. -/
def fallbackCategorization : JsonVal :=
  jobj [("category", jstr "reference"), ("tags", jarr [])]

/-- `categorize` (AI service), given the text-generation backend's response
    content: returns the parsed JSON object verbatim, or the fallback object
    on any parse failure.  The function never throws: the `try`/`catch` in
    the source absorbs the failure into the fallback return value. -/
def categorizeModel (resp : String) : JsonVal :=
  match jsonFromResponse resp with
  | some j => j
  | none => fallbackCategorization

/-- The `tags` field that `categorize`'s caller reads, as the string list the
    database column expects (`none` when absent or not such a list). -/
def categorizeTags (resp : String) : Option (List String) :=
  match getField (categorizeModel resp) "tags" with
  | some (jarr xs) =>
    xs.foldr (fun x acc =>
      match x, acc with
      | jstr s, some l => some (s :: l)
      | _, _ => none) (some [])
  | _ => none

/-- JS `parseInt` on a string (radix unspecified): skip leading whitespace,
    optional sign, optional `0x` hex marker, then the longest digit run;
    `NaN` (`none`) when no digits follow. -/
def parseIntStr (s : String) : Option Int :=
  let cs := s.toList.dropWhile isWsChar
  let (sign, cs1) : Int × List Char :=
    match cs with
    | '-' :: r => (-1, r)
    | '+' :: r => (1, r)
    | _ => (1, cs)
  match cs1 with
  | '0' :: x :: r =>
    if x = 'x' ∨ x = 'X' then
      let hs := r.takeWhile (fun c => (hexVal c).isSome)
      if hs.isEmpty then some 0
      else some (sign * (hs.foldl (fun acc c => acc * 16 + ((hexVal c).getD 0)) 0 : Nat))
    else
      let ds := ('0' :: x :: r).takeWhile Char.isDigit
      some (sign * (digitsToNat ds : Int))
  | _ =>
    let ds := cs1.takeWhile Char.isDigit
    if ds.isEmpty then none else some (sign * (digitsToNat ds : Int))

/-- Truncation toward zero of the exact decimal `m * 10 ^ e`. -/
def truncDecimal (m e : Int) : Int :=
  if 0 ≤ e then m * 10 ^ e.toNat else m.tdiv (10 ^ (-e).toNat)

/-- JS `parseInt(v)` on a field read from a parsed JSON value.  `none` is
    `NaN`.  A number operand is stringified and re-parsed by JS; for numbers
    rendered in plain decimal notation that is truncation toward zero, which
    is how it is modelled here.  Operands of other shapes (booleans, `null`,
    objects, a missing field) stringify to digit-free text and give `NaN`;
    the exotic array case (`parseInt([7])` is `7`) is modelled as `NaN`,
    which does not affect any claim since the result is clamped either way. -/
def jsParseInt : Option JsonVal → Option Int
  | some (jnum m e) => some (truncDecimal m e)
  | some (jstr s) => parseIntStr s
  | _ => none

/-- JS `x || 5` applied to a `parseInt` result: `NaN` and `0` (both falsy)
    become the neutral default `5`. -/
def orDefault5 (v : Option Int) : Int :=
  match v with
  | none => 5
  | some 0 => 5
  | some n => n

/-- `Math.min(10, Math.max(1, n))`. -/
def clamp110 (n : Int) : Int := min 10 (max 1 n)

/-- Result shape of `score` (AI service). -/
structure ScoreResult where
  quality : Int
  actionability : Int
deriving DecidableEq, Repr

/-- `score` (AI service), given the text-generation backend's response
    content: extracts a JSON block, reads `quality`/`actionability` through
    `parseInt(...) || 5`, and clamps each to `[1, 10]`; any parse failure
    yields the neutral default `5`/`5`.  The `try`/`catch` in the source
    absorbs the failure: the function never throws. -/
def scoreModel (resp : String) : ScoreResult :=
  match jsonFromResponse resp with
  | none => ⟨5, 5⟩
  | some parsed =>
    ⟨clamp110 (orDefault5 (jsParseInt (getField parsed "quality"))),
     clamp110 (orDefault5 (jsParseInt (getField parsed "actionability")))⟩

/-! ## URL parsing

`new URL(u)` as used by the source detector and the author extractor, for
hierarchical `scheme://authority/path` URLs: hostname (lowercased, userinfo
and port stripped) and pathname (query/fragment stripped, defaulting to
`/`).  A URL without `://` after a valid scheme name is treated as
unparseable (scheme-only URLs such as `mailto:` yield an empty hostname in
JS; no platform rule matches an empty hostname, so the claims are
unaffected).  Hosts are not IDN/percent-normalised and IPv6 literals are not
modelled. -/

structure UrlParts where
  hostname : String
  pathname : String
deriving DecidableEq, Repr

/-- A scheme name: a letter followed by letters, digits, `+`, `-` or `.`. -/
def validScheme (s : String) : Bool :=
  match s.toList with
  | c :: cs => c.isAlpha ∧ cs.all fun d => d.isAlphanum ∨ d = '+' ∨ d = '-' ∨ d = '.'
  | [] => false

/-- Split an authority-and-path remainder into hostname and pathname. -/
def splitAuthority (rest : List Char) : UrlParts :=
  let authority := rest.takeWhile fun c => ¬(c = '/' ∨ c = '?' ∨ c = '#')
  let afterAuth := rest.drop authority.length
  let hostPort :=
    match findSubIdx ['@'] authority.reverse with
    | none => authority
    | some i => (authority.reverse.take i).reverse
  let host := hostPort.takeWhile (· ≠ ':')
  let path := afterAuth.takeWhile fun c => ¬(c = '?' ∨ c = '#')
  { hostname := strToLower host.asString
    pathname := if path.isEmpty ∨ path.head? ≠ some '/' then "/" else path.asString }

/-- `new URL(u)` (see the section comment for the modelled subset). -/
def parseUrl (u : String) : Option UrlParts :=
  match findSubIdx ['/', '/'] u.toList with
  | some i =>
    if 1 ≤ i ∧ u.toList.get? (i - 1) = some ':' ∧ validScheme ((u.toList.take (i - 1)).asString) then
      let parts := splitAuthority (u.toList.drop (i + 2))
      if parts.hostname = "" then none else some parts
    else none
  | none => none

/-! ## Author extraction (scraper service)

`extractAuthor(html, url)` tries, in order: URL path conventions
(`extractAuthorFromUrl`), meta tags, JSON-LD blocks, and byline HTML
patterns.  The three HTML-based methods each return
`cleanAuthorName(<first matched raw string>)` (or `null` when nothing
matches); the raw regex match against the markup is modelled as an oracle
candidate per method, and `cleanAuthorName` is embedded exactly.  The
URL-based method returns its match directly, *not* through
`cleanAuthorName`. -/

/-- Decode the six HTML entities handled by `cleanAuthorName`, in source
    order (each `replace(/.../g, ...)` is global). -/
def decodeEntities (s : String) : String :=
  replaceAll (replaceAll (replaceAll (replaceAll (replaceAll (replaceAll
    s "&amp;" "&") "&lt;" "<") "&gt;" ">") "&quot;" "\"") "&#39;" "'")
    "&nbsp;" " "

/-- `replace(/\s+/g, ' ')`: collapse each maximal whitespace run to one
    space (structural right fold: a whitespace character in front of an
    already-collapsed space is absorbed). -/
def collapseWs : List Char → List Char
  | [] => []
  | c :: cs =>
    let rest := collapseWs cs
    if isWsChar c then
      match rest with
      | ' ' :: _ => rest
      | _ => ' ' :: rest
    else c :: rest

/-- `.trim()` restricted to the whitespace class that can remain here. -/
def trimWs (cs : List Char) : List Char :=
  ((cs.dropWhile isWsChar).reverse.dropWhile isWsChar).reverse

/-- The entity-decoded, whitespace-collapsed, trimmed form of a raw name. -/
def cleanedForm (n : String) : String :=
  (trimWs (collapseWs (decodeEntities n).toList)).asString

/-- `cleanAuthorName(name)` (scraper service): entity-decode, collapse
    whitespace, trim; reject URL-shaped results and results outside the
    2–100 character band. -/
def cleanAuthorName (n : String) : Option String :=
  if n = "" then none
  else if strStartsWith (cleanedForm n) "http://" ∨
      strStartsWith (cleanedForm n) "https://" then none
  else if (cleanedForm n).length < 2 ∨ (cleanedForm n).length > 100 then none
  else some (cleanedForm n)

/-- First path segment: the match group of `/^\/([^\/]+)/` on a pathname. -/
def firstSegment (path : String) : Option String :=
  match path.toList with
  | '/' :: rest =>
    let seg := rest.takeWhile (· ≠ '/')
    if seg.isEmpty then none else some seg.asString
  | _ => none

/-- The match group of `/^\/pre\/([^\/]+)/` for a literal first segment. -/
def segmentAfter (pre : String) (path : String) : Option String :=
  let p := "/" ++ pre ++ "/"
  if strStartsWith path p then
    let seg := (path.toList.drop p.length).takeWhile (· ≠ '/')
    if seg.isEmpty then none else some seg.asString
  else none

/-- The match group of `/^\/@([^\/]+)/`. -/
def atSegment (path : String) : Option String :=
  if strStartsWith path "/@" then
    let seg := (path.toList.drop 2).takeWhile (· ≠ '/')
    if seg.isEmpty then none else some seg.asString
  else none

/-- Twitter/X non-profile first segments excluded by `extractAuthorFromUrl`. -/
def twitterDenylist : List String :=
  ["home", "explore", "search", "notifications", "messages", "i", "settings"]

/-- GitHub non-profile first segments excluded by `extractAuthorFromUrl`. -/
def githubDenylist : List String :=
  ["explore", "trending", "collections", "events", "sponsors", "settings",
   "notifications", "pulls", "issues", "marketplace", "features", "pricing",
   "enterprise", "team", "about", "search"]

/-- Twitter/X hostnames recognised by the URL-based author rules. -/
def twitterHosts : List String :=
  ["twitter.com", "www.twitter.com", "x.com", "www.x.com",
   "mobile.twitter.com", "mobile.x.com"]

/-- `extractAuthorFromUrl(url)` (scraper service): platform-specific URL path
    conventions; the returned handle is *not* passed through
    `cleanAuthorName`. -/
def extractAuthorFromUrl (url : Option String) : Option String :=
  match url with
  | none => none
  | some u =>
    match parseUrl u with
    | none => none
    | some parts =>
      let hostname := parts.hostname
      let pathname := parts.pathname
      if hostname ∈ twitterHosts then
        match firstSegment pathname with
        | some seg => if seg ∈ twitterDenylist then none else some ("@" ++ seg)
        | none => none
      else if hostname = "github.com" ∨ hostname = "www.github.com" then
        match firstSegment pathname with
        | some seg => if seg ∈ githubDenylist then none else some seg
        | none => none
      else if hostname = "youtube.com" ∨ hostname = "www.youtube.com" ∨
              hostname = "m.youtube.com" then
        match atSegment pathname with
        | some seg => some ("@" ++ seg)
        | none =>
          match segmentAfter "c" pathname with
          | some seg => some seg
          | none => segmentAfter "user" pathname
      else if strEndsWith hostname ".substack.com" ∧ hostname ≠ "substack.com" then
        let subdomain := replaceFirst hostname ".substack.com" ""
        if subdomain ≠ "" ∧ subdomain ≠ "www" then some subdomain else none
      else if hostname = "medium.com" ∨ hostname = "www.medium.com" then
        match atSegment pathname with
        | some seg => some ("@" ++ seg)
        | none => none
      else if hostname = "reddit.com" ∨ hostname = "www.reddit.com" ∨
              hostname = "old.reddit.com" ∨ hostname = "new.reddit.com" then
        match segmentAfter "u" pathname with
        | some seg => some ("u/" ++ seg)
        | none =>
          match segmentAfter "user" pathname with
          | some seg => some ("u/" ++ seg)
          | none => none
      else if hostname = "linkedin.com" ∨ hostname = "www.linkedin.com" then
        match segmentAfter "in" pathname with
        | some seg => some (replaceAll seg "-" " ")
        | none => none
      else none

/-- Oracle for the raw strings matched out of the markup by the three
    HTML-based extraction methods (meta tags, JSON-LD, byline patterns);
    `none` when the method's patterns match nothing.  In the source each
    matched raw string is passed through `cleanAuthorName` before being
    returned. -/
structure HtmlAuthorCandidates where
  metaRaw : Option String
  jsonLdRaw : Option String
  patternRaw : Option String
deriving DecidableEq, Repr

/-- `extractAuthor(html, url)` (scraper service). -/
def extractAuthor (cands : HtmlAuthorCandidates) (html : String)
    (url : Option String) : Option String :=
  if html = "" ∧ ¬jsTruthy url then none
  else
    match extractAuthorFromUrl url with
    | some a => some a
    | none =>
      if html = "" then none
      else
        match cands.metaRaw.bind cleanAuthorName with
        | some a => some a
        | none =>
          match cands.jsonLdRaw.bind cleanAuthorName with
          | some a => some a
          | none => cands.patternRaw.bind cleanAuthorName

/-! ## Source platform detection (`detectSourcePlatform`) -/

/-- `extractCleanDomain(hostname)`: strip a leading `www.`, then take the
    registrable label, collapsing the listed two-part TLDs. -/
def extractCleanDomain (hostname : String) : String :=
  let domain := if strStartsWith hostname "www." then strDrop hostname 4 else hostname
  let parts := (splitOnChar '.' domain.toList).map List.asString
  if parts.length ≥ 2 then
    let commonTwoPartTlds := ["co.uk", "com.au", "co.nz", "com.br", "co.jp"]
    let lastTwo := joinWith "." (parts.drop (parts.length - 2))
    if lastTwo ∈ commonTwoPartTlds ∧ parts.length ≥ 3 then
      parts.getD (parts.length - 3) ""
    else
      parts.getD (parts.length - 2) ""
  else domain

/-- The hostname `detectSourcePlatform` works on: `none` for a falsy URL or
    one `new URL` rejects (the `catch` branch). -/
def urlHost (url : Option String) : Option String :=
  match url with
  | none => none
  | some u => if u = "" then none else (parseUrl u).map (·.hostname)

/-- Membership in the fixed known-platform table of `detectSourcePlatform`
    (each disjunct transcribes one `if` condition of the source chain). -/
def isKnownHost (h : String) : Bool :=
  (h = "twitter.com" ∨ h = "www.twitter.com" ∨ h = "x.com" ∨ h = "www.x.com" ∨
    h = "mobile.twitter.com" ∨ h = "mobile.x.com") ∨
  (h = "youtube.com" ∨ h = "www.youtube.com" ∨ h = "m.youtube.com" ∨ h = "youtu.be") ∨
  (h = "medium.com" ∨ h = "www.medium.com" ∨ strEndsWith h ".medium.com") ∨
  (strEndsWith h ".substack.com" ∨ h = "substack.com") ∨
  (h = "github.com" ∨ h = "www.github.com" ∨ h = "gist.github.com") ∨
  (h = "reddit.com" ∨ h = "www.reddit.com" ∨ h = "old.reddit.com" ∨
    h = "new.reddit.com" ∨ strEndsWith h ".reddit.com") ∨
  (h = "news.ycombinator.com" ∨ h = "ycombinator.com") ∨
  (h = "linkedin.com" ∨ h = "www.linkedin.com" ∨ strEndsWith h ".linkedin.com")

/-- `detectSourcePlatform(url)` (source detector): falsy or unparseable URLs
    yield `'unknown'`; the fixed platform chain; otherwise the cleaned
    base-domain label. -/
def detectSourcePlatform (url : Option String) : String :=
  match urlHost url with
  | none => "unknown"
  | some h =>
    if h = "twitter.com" ∨ h = "www.twitter.com" ∨ h = "x.com" ∨ h = "www.x.com" ∨
        h = "mobile.twitter.com" ∨ h = "mobile.x.com" then "twitter"
    else if h = "youtube.com" ∨ h = "www.youtube.com" ∨ h = "m.youtube.com" ∨
        h = "youtu.be" then "youtube"
    else if h = "medium.com" ∨ h = "www.medium.com" ∨ strEndsWith h ".medium.com" then
      "medium"
    else if strEndsWith h ".substack.com" ∨ h = "substack.com" then "substack"
    else if h = "github.com" ∨ h = "www.github.com" ∨ h = "gist.github.com" then
      "github"
    else if h = "reddit.com" ∨ h = "www.reddit.com" ∨ h = "old.reddit.com" ∨
        h = "new.reddit.com" ∨ strEndsWith h ".reddit.com" then "reddit"
    else if h = "news.ycombinator.com" ∨ h = "ycombinator.com" then "hackernews"
    else if h = "linkedin.com" ∨ h = "www.linkedin.com" ∨
        strEndsWith h ".linkedin.com" then "linkedin"
    else extractCleanDomain h

/-! ## The capture record and partial-field updates

`Capture` is the stored row (`captures` table) restricted to the fields the
pipeline reads or writes.  A Supabase `update({...})` payload sets exactly
the fields present in the JS object — a field may be present-with-null — so
each payload field is an `Option` of the column type: `none` means the field
is omitted from the update and the stored value is untouched. -/

structure Capture where
  title : Option String := none
  url : Option String := none
  content : Option String := none
  summary : Option String := none
  category : Option String := none
  tags : Option (List String) := none
  qualityScore : Option Int := none
  actionabilityScore : Option Int := none
  displayTitle : Option String := none
  keyTakeaways : Option (List String) := none
  actionItems : Option (List String) := none
  sourcePlatform : Option String := none
  authorName : Option String := none
  imageUrl : Option String := none
  embedding : Option String := none
  status : String := "pending"
  errorMessage : Option String := none
  processedAt : Option String := none
deriving DecidableEq, Repr

structure UpdatePayload where
  content : Option (Option String) := none
  summary : Option (Option String) := none
  category : Option (Option String) := none
  tags : Option (Option (List String)) := none
  qualityScore : Option (Option Int) := none
  actionabilityScore : Option (Option Int) := none
  displayTitle : Option (Option String) := none
  keyTakeaways : Option (Option (List String)) := none
  actionItems : Option (Option (List String)) := none
  sourcePlatform : Option (Option String) := none
  authorName : Option (Option String) := none
  imageUrl : Option (Option String) := none
  embedding : Option (Option String) := none
  status : Option String := none
  errorMessage : Option (Option String) := none
  processedAt : Option (Option String) := none
deriving DecidableEq, Repr

/-- Apply one update payload to a stored record (fields present in the
    payload overwrite; absent fields are untouched). -/
def applyUpdate (c : Capture) (u : UpdatePayload) : Capture :=
  { c with
    content := u.content.getD c.content
    summary := u.summary.getD c.summary
    category := u.category.getD c.category
    tags := u.tags.getD c.tags
    qualityScore := u.qualityScore.getD c.qualityScore
    actionabilityScore := u.actionabilityScore.getD c.actionabilityScore
    displayTitle := u.displayTitle.getD c.displayTitle
    keyTakeaways := u.keyTakeaways.getD c.keyTakeaways
    actionItems := u.actionItems.getD c.actionItems
    sourcePlatform := u.sourcePlatform.getD c.sourcePlatform
    authorName := u.authorName.getD c.authorName
    imageUrl := u.imageUrl.getD c.imageUrl
    embedding := u.embedding.getD c.embedding
    status := u.status.getD c.status
    errorMessage := u.errorMessage.getD c.errorMessage
    processedAt := u.processedAt.getD c.processedAt }

/-- Fold a run's issued writes (payload, did-the-store-apply-it) over the
    stored record, when it exists.  A write against an absent row updates
    zero rows. -/
def applyWrites (rec : Option Capture) (ws : List (UpdatePayload × Bool)) :
    Option Capture :=
  ws.foldl (fun r uw => if uw.2 then r.map (applyUpdate · uw.1) else r) rec

/-! ## Embedding text composition (embeddings service) -/

/-- `generateCaptureEmbedding`'s text composition: `Title:`, `Summary:`,
    `Category:`, `Tags:` and a 10 000-character prefix of `Content:`,
    joined by blank lines, each part present only when its field is truthy
    (for tags: a non-empty array). -/
def embedText (c : Capture) : String :=
  let parts : List String :=
    (match c.title with
     | some t => if t ≠ "" then ["Title: " ++ t] else []
     | none => []) ++
    (match c.summary with
     | some s => if s ≠ "" then ["Summary: " ++ s] else []
     | none => []) ++
    (match c.category with
     | some cat => if cat ≠ "" then ["Category: " ++ cat] else []
     | none => []) ++
    (match c.tags with
     | some ts => if ts.length > 0 then ["Tags: " ++ joinWith ", " ts] else []
     | none => []) ++
    (match c.content with
     | some ct => if ct ≠ "" then ["Content: " ++ jsSlice ct 10000] else []
     | none => [])
  joinWith "\n\n" parts

/-- `formatForPgVector(embedding)`. -/
def formatForPgVector (v : List Int) : String :=
  "[" ++ joinWith "," (v.map toString) ++ "]"

/-! ## The enrichment orchestrator (`processCapture`)

Embedded from the processor pipeline that also extracts author, platform and
image (the fuller of the two processor revisions in the repository, the one
the claims cite).  Every external effect is an oracle in `Env`; a JS
exception from an awaited call is the oracle returning `none`. -/

/-- Result of `scrapeUrl` as consumed by the orchestrator. -/
structure ScrapeOutcome where
  success : Bool
  content : String := ""
  html : Option String := none     -- may be present even on failure
deriving DecidableEq, Repr

/-- The object `processContent` resolves with (all four AI sub-calls
    succeeded; field values already parsed/cleaned by the AI service). -/
structure AiOutcome where
  summary : String
  category : String
  tags : List String
  quality : Int
  actionability : Int
  displayTitle : String
deriving DecidableEq, Repr

/-- The object `extractInsights` resolves with.  (`extractInsights` itself
    lives in a source file not present in the snapshot; only its resolved
    value is needed here, as an oracle like the other AI calls.) -/
structure InsightsOutcome where
  takeaways : List String
  actions : List String
deriving DecidableEq, Repr

/-- Oracle environment for one `processCapture(captureId)` run. -/
structure Env where
  /-- `isSupabaseConfigured()` -/
  supabaseConfigured : Bool
  /-- The stored `captures` row for the id (`none`: no such row). -/
  dbRecord : Option Capture
  /-- Whether the initial fetch reaches storage (`false`: fetch errors). -/
  fetchOk : Bool
  /-- `fetchError.message` when the fetch errors. -/
  fetchErrMsg : String := "storage unreachable"
  /-- Whether the `status: 'processing'` write is applied (its error, if
      any, is ignored by the source). -/
  processingWriteOk : Bool
  /-- `scrapeUrl(capture.url)`'s result (`scrapeUrl` never throws). -/
  scrape : ScrapeOutcome
  /-- Raw author strings the HTML-based extraction methods match. -/
  authorCands : HtmlAuthorCandidates
  /-- `extractImageUrl(capture.url, rawHtml)` (never throws; `none` = no
      image found). -/
  imageFound : Option String
  /-- `storeImage(...)`: `some url` when `{success: true, url}`. -/
  imageStored : Option String
  /-- `isAiConfigured()` -/
  aiConfigured : Bool
  /-- Joint result of `Promise.all([processContent, extractInsights])`:
      `none` when either rejects. -/
  aiOutcome : Option (AiOutcome × InsightsOutcome)
  /-- `isEmbeddingsConfigured()` -/
  embConfigured : Bool
  /-- `generateCaptureEmbedding`'s backend call: the returned vector, or
      `none` when the call throws. -/
  embedResult : Option (List Int)
  /-- Whether the final merged write succeeds. -/
  finalWriteOk : Bool
  /-- `updateError.message` when the final write fails. -/
  updateErrMsg : String := "update failed"
  /-- Whether the `status: 'error'` write (fatal path) is applied; its own
      failure is swallowed by `.catch(() => {})`. -/
  errorWriteOk : Bool
  /-- `new Date().toISOString()` at the final-update construction. -/
  now : String := "2026-01-01T00:00:00.000Z"
deriving DecidableEq, Repr

/-- Observable outcome of one `processCapture` run: the returned value, the
    writes issued (in order, with whether the store applied each), the final
    stored record, and the text submitted to the embedding backend (when the
    embedding stage issued a call). -/
structure RunOutcome where
  success : Bool
  error : Option String := none
  writes : List (UpdatePayload × Bool) := []
  record : Option Capture := none
  embedInput : Option String := none
deriving DecidableEq, Repr

/-- `isScrapeable(url)` (scraper service). -/
def isScrapeable (url : Option String) : Bool :=
  match url with
  | none => false
  | some u =>
    u ≠ "" ∧
    ¬(["chrome://", "chrome-extension://", "about:", "file://", "javascript:",
       "data:"].any fun p => strStartsWith u p)

/-- The `{ status: 'processing' }` payload written at pipeline start. -/
def processingPayload : UpdatePayload := { status := some "processing" }

/-- The `{ status: 'error', error_message: msg }` payload written on a fatal
    failure: note every enrichment field is absent from it. -/
def errorPayload (msg : String) : UpdatePayload :=
  { status := some "error", errorMessage := some (some msg) }

/-- The scraping step: `content` and `rawHtml` as the orchestrator leaves
    them after step 3 (`''` when unscrapeable or failed; raw HTML is kept
    even from a failed scrape). -/
def scrapedContent (env : Env) (capture : Capture) : String × String :=
  if isScrapeable capture.url then
    if env.scrape.success then (env.scrape.content, env.scrape.html.getD "")
    else ("", env.scrape.html.getD "")
  else ("", "")

/-- The AI stage's contribution: `some` exactly when AI is configured, there
    is input text (`content || capture.title`), and neither `processContent`
    nor `extractInsights` rejected. -/
def aiContribution (env : Env) (capture : Capture) (content : String) :
    Option (AiOutcome × InsightsOutcome) :=
  if env.aiConfigured ∧ (content ≠ "" ∨ jsTruthy capture.title) then env.aiOutcome
  else none

/-- The update object as first constructed in the orchestrator: the
    scrape/platform/author/image fields are always present —
    `content: content || null`, `author_name`/`image_url` possibly null. -/
def baseUpdates (env : Env) (capture : Capture) : UpdatePayload :=
  { content := some (if (scrapedContent env capture).1 = "" then none
                     else some (scrapedContent env capture).1)
    processedAt := some (some env.now)
    sourcePlatform := some (some (detectSourcePlatform capture.url))
    authorName := some (extractAuthor env.authorCands (scrapedContent env capture).2
      capture.url)
    imageUrl := some (match env.imageFound with
                      | some _ => env.imageStored
                      | none => none) }

/-- The update object as built through steps 3–4 (before the embedding
    stage): the eight AI fields are present only when the AI stage
    contributed. -/
def preEmbedUpdates (env : Env) (capture : Capture) : UpdatePayload :=
  match aiContribution env capture (scrapedContent env capture).1 with
  | some (a, ins) =>
    { baseUpdates env capture with
      summary := some (some a.summary)
      category := some (some a.category)
      tags := some (some a.tags)
      qualityScore := some (some a.quality)
      actionabilityScore := some (some a.actionability)
      displayTitle := some (some a.displayTitle)
      keyTakeaways := some (some ins.takeaways)
      actionItems := some (some ins.actions) }
  | none => baseUpdates env capture

/-- The text `generateCaptureEmbedding` submits to the embedding backend,
    composed from `{...capture, ...updates}` — the stored record merged with
    the updates built so far (`none` when embeddings are not configured and
    the stage is skipped). -/
def embedInputOf (env : Env) (capture : Capture) : Option String :=
  if env.embConfigured then
    some (embedText (applyUpdate capture (preEmbedUpdates env capture)))
  else none

/-- The update object after step 5: the embedding field is added only when
    the stage ran and its call succeeded. -/
def builtUpdates (env : Env) (capture : Capture) : UpdatePayload :=
  let u := preEmbedUpdates env capture
  if env.embConfigured then
    match env.embedResult with
    | some v => { u with embedding := some (some (formatForPgVector v)) }
    | none => u
  else u

/-- The final merged write payload (`updates.status = 'completed'`). -/
def finalPayload (env : Env) (capture : Capture) : UpdatePayload :=
  { builtUpdates env capture with status := some "completed" }

/-- The fatal path shared by the two `throw` sites: log, attempt the
    error-status write (its own failure swallowed), and return
    `{ success: false, error }`. -/
def fatalOutcome (env : Env) (msg : String) (ws : List (UpdatePayload × Bool))
    (embedIn : Option String) : RunOutcome :=
  let ws' := ws ++ [(errorPayload msg, env.errorWriteOk)]
  { success := false
    error := some msg
    writes := ws'
    record := applyWrites env.dbRecord ws'
    embedInput := embedIn }

/-- `processCapture(captureId)` (background processor). -/
def processCapture (env : Env) : RunOutcome :=
  if ¬env.supabaseConfigured then
    { success := false, error := some "Supabase not configured"
      record := env.dbRecord }
  else
    match (if env.fetchOk then env.dbRecord else none) with
    | none =>
      let msg := "Failed to fetch capture: " ++
        (if env.fetchOk then "Not found" else env.fetchErrMsg)
      fatalOutcome env msg [] none
    | some capture =>
      let ws1 := [(processingPayload, env.processingWriteOk)]
      if env.finalWriteOk then
        let ws := ws1 ++ [(finalPayload env capture, true)]
        { success := true
          writes := ws
          record := applyWrites env.dbRecord ws
          embedInput := embedInputOf env capture }
      else
        fatalOutcome env ("Failed to update capture: " ++ env.updateErrMsg)
          (ws1 ++ [(finalPayload env capture, false)])
          (embedInputOf env capture)

/-- All enrichment fields of `c1` agree with `c0` (status, error message and
    the record identity are deliberately not constrained). -/
def enrichmentUnchanged (c0 c1 : Capture) : Prop :=
  c1.content = c0.content ∧ c1.summary = c0.summary ∧ c1.category = c0.category ∧
  c1.tags = c0.tags ∧ c1.qualityScore = c0.qualityScore ∧
  c1.actionabilityScore = c0.actionabilityScore ∧ c1.displayTitle = c0.displayTitle ∧
  c1.keyTakeaways = c0.keyTakeaways ∧ c1.actionItems = c0.actionItems ∧
  c1.sourcePlatform = c0.sourcePlatform ∧ c1.authorName = c0.authorName ∧
  c1.imageUrl = c0.imageUrl ∧ c1.embedding = c0.embedding

instance (c0 c1 : Capture) : Decidable (enrichmentUnchanged c0 c1) := by
  unfold enrichmentUnchanged; infer_instance

/-! ## Concrete fixtures used by counterexamples and witnesses -/

/-- No HTML-based author pattern matches. -/
def noCands : HtmlAuthorCandidates := ⟨none, none, none⟩

/-- A previously enriched capture about to be re-processed. -/
def baseCapture : Capture :=
  { title := some "T"
    url := some "https://example.com/x"
    content := some "old content"
    summary := some "old summary"
    category := some "learning"
    tags := some ["old"]
    authorName := some "Old Author"
    imageUrl := some "https://img.example.com/old.png"
    embedding := some "[0]"
    status := "completed" }

/-- A run in which the store works but the scrape fails, no author or image
    is found, and the AI/embedding stages are not configured. -/
def baseEnv : Env :=
  { supabaseConfigured := true
    dbRecord := some baseCapture
    fetchOk := true
    processingWriteOk := true
    scrape := { success := false, html := none }
    authorCands := noCands
    imageFound := none
    imageStored := none
    aiConfigured := false
    aiOutcome := none
    embConfigured := false
    embedResult := none
    finalWriteOk := true
    errorWriteOk := true }

/-- A pending capture sitting behind an unconfigured store. -/
def pendingCapture : Capture :=
  { title := some "T", url := some "https://example.com/x" }

/-- `processCapture` invoked while Supabase is not configured. -/
def unconfiguredEnv : Env :=
  { baseEnv with supabaseConfigured := false, dbRecord := some pendingCapture }

/-- The initial record fetch fails (storage unreachable). -/
def fetchFailEnv : Env :=
  { baseEnv with fetchOk := false }

/-- The final persistence write fails; the subsequent error write succeeds. -/
def finalFailEnv : Env :=
  { baseEnv with finalWriteOk := false }

/-- First AI outcome for the embedding-independence counterexample. -/
def aiOutcomeA : AiOutcome :=
  { summary := "summary one", category := "news", tags := ["t"]
    quality := 7, actionability := 5, displayTitle := "DT" }

/-- Second AI outcome: identical except for the summary text. -/
def aiOutcomeB : AiOutcome :=
  { aiOutcomeA with summary := "summary two" }

/-- A fully configured run using `aiOutcomeA`. -/
def aiEnvA : Env :=
  { baseEnv with
    aiConfigured := true
    aiOutcome := some (aiOutcomeA, ⟨[], []⟩)
    embConfigured := true
    embedResult := some [1, 2] }

/-- The same run with `aiOutcomeB`: the two environments differ only in the
    AI analysis outcome. -/
def aiEnvB : Env :=
  { aiEnvA with aiOutcome := some (aiOutcomeB, ⟨[], []⟩) }

/-- An AI categorization whose parsed tags are non-lowercase duplicates. -/
def badTagsResp : String :=
  "\x7b\"category\": \"news\", \"tags\": [\"Foo\", \"Foo\"]\x7d"

/-- An AI outcome carrying those tags into the pipeline. -/
def dupTagsAi : AiOutcome :=
  { summary := "s", category := "news", tags := ["Foo", "Foo"]
    quality := 5, actionability := 5, displayTitle := "d" }

/-- A run that persists the duplicate, non-lowercase tags. -/
def dupTagsEnv : Env :=
  { baseEnv with aiConfigured := true, aiOutcome := some (dupTagsAi, ⟨[], []⟩) }

/-! # Theorems -/

/-- The clamp `Math.min(10, Math.max(1, n))` always lands in `[1, 10]`. -/
theorem clamp110_bounds (n : Int) : 1 ≤ clamp110 n ∧ clamp110 n ≤ 10 := by
  unfold clamp110
  omega

/-- **C8.** For any AI scoring response — out-of-range numeric, non-numeric,
    or unparseable — the quality and actionability values returned by
    `score` are integers (by their `Int` type) in `[1, 10]`, and a parse
    failure maps to the neutral default `5`/`5`. -/
theorem score_always_clamped (resp : String) :
    1 ≤ (scoreModel resp).quality ∧ (scoreModel resp).quality ≤ 10 ∧
    1 ≤ (scoreModel resp).actionability ∧ (scoreModel resp).actionability ≤ 10 ∧
    (jsonFromResponse resp = none → scoreModel resp = ⟨5, 5⟩) := by
  unfold scoreModel
  cases h : jsonFromResponse resp with
  | none => refine ⟨by norm_num, by norm_num, by norm_num, by norm_num, fun _ => rfl⟩
  | some parsed =>
    refine ⟨(clamp110_bounds _).1, (clamp110_bounds _).2,
      (clamp110_bounds _).1, (clamp110_bounds _).2, fun hc => ?_⟩
    exact Option.noConfusion hc

/-- Witness: a digit-free response satisfies the bounds and hits the
    neutral default. -/
theorem score_always_clamped_witness :
    1 ≤ (scoreModel "junk").quality ∧ scoreModel "junk" = ⟨5, 5⟩ :=
  ⟨(score_always_clamped "junk").1,
   (score_always_clamped "junk").2.2.2.2 (by rfl)⟩

/-- **C7.** For any AI categorization response from which no well-formed
    JSON object can be parsed, `categorize` returns the designated fallback
    category `'reference'` with an empty tags list; the parse failure is
    absorbed (`categorizeModel` is a total function — no error status is
    propagated). -/
theorem categorize_parse_failure_fallback (resp : String)
    (h : jsonFromResponse resp = none) :
    categorizeModel resp = fallbackCategorization ∧
    getField (categorizeModel resp) "category" = some (JsonVal.jstr "reference") ∧
    categorizeTags resp = some [] := by
  have hm : categorizeModel resp = fallbackCategorization := by
    unfold categorizeModel
    rw [h]
  refine ⟨hm, ?_, ?_⟩
  · rw [hm]
    rfl
  · unfold categorizeTags
    rw [hm]
    rfl

/-- Witness: a brace-free refusal response maps to the fallback. -/
theorem categorize_parse_failure_fallback_witness :
    categorizeModel "no json here" = fallbackCategorization ∧
    categorizeTags "no json here" = some [] :=
  ⟨(categorize_parse_failure_fallback "no json here" (by rfl)).1,
   (categorize_parse_failure_fallback "no json here" (by rfl)).2.2⟩

/-- **C10.** `detectSourcePlatform` is total by construction (the `catch`
    branch is the `none` case of `urlHost`): falsy or unparseable inputs
    yield `'unknown'`, and any parsed host outside the known-platform table
    yields the cleaned base-domain label. -/
theorem detectSourcePlatform_total (url : Option String) :
    (urlHost url = none → detectSourcePlatform url = "unknown") ∧
    (∀ h, urlHost url = some h → isKnownHost h = false →
      detectSourcePlatform url = extractCleanDomain h) := by
  constructor
  · intro h
    unfold detectSourcePlatform
    rw [h]
  · intro h hh hk
    simp only [isKnownHost, decide_eq_false_iff_not, not_or] at hk
    obtain ⟨k1, k2, k3, k4, k5, k6, k7, k8⟩ := hk
    simp only [detectSourcePlatform, hh]
    rw [if_neg (by simp only [not_or]; exact k1),
        if_neg (by simp only [not_or]; exact k2),
        if_neg (by simp only [not_or]; exact k3),
        if_neg (by simp only [not_or]; exact k4),
        if_neg (by simp only [not_or]; exact k5),
        if_neg (by simp only [not_or]; exact k6),
        if_neg (by simp only [not_or]; exact k7),
        if_neg (by simp only [not_or]; exact k8)]

/-- Witness: a null URL yields `'unknown'`; an unknown two-part-TLD host
    yields its cleaned base-domain label. -/
theorem detectSourcePlatform_total_witness :
    detectSourcePlatform none = "unknown" ∧
    detectSourcePlatform (some "https://blog.example.co.uk/p") =
      extractCleanDomain "blog.example.co.uk" ∧
    extractCleanDomain "blog.example.co.uk" = "example" :=
  ⟨(detectSourcePlatform_total none).1 rfl,
   (detectSourcePlatform_total (some "https://blog.example.co.uk/p")).2
     "blog.example.co.uk" (by rfl) (by decide),
   by decide⟩

/-- **C9, counterexample.** The claim requires every non-null author name
    returned by `extractAuthor` — explicitly including the URL-path
    conventions — to be 2–100 characters; but URL-derived names bypass
    `cleanAuthorName` entirely: a one-character GitHub owner is returned
    as-is. -/
theorem extractAuthor_url_unsanitized :
    extractAuthor noCands "" (some "https://github.com/a/repo") = some "a" ∧
    ("a" : String).length < 2 := by
  decide

/-- **C9, amended.** Every non-null author name returned by `extractAuthor`
    either comes from the URL-path conventions (returned verbatim, with no
    sanitization) or was produced by `cleanAuthorName`; and every non-null
    `cleanAuthorName` result is the entity-decoded, whitespace-collapsed,
    trimmed form of its input, is not URL-shaped, and is 2–100 characters
    long. -/
theorem extractAuthor_sanitization :
    (∀ cands html url s, extractAuthor cands html url = some s →
      extractAuthorFromUrl url = some s ∨ ∃ raw, cleanAuthorName raw = some s) ∧
    (∀ raw s, cleanAuthorName raw = some s →
      s = cleanedForm raw ∧ ¬strStartsWith s "http://" ∧ ¬strStartsWith s "https://" ∧
      2 ≤ s.length ∧ s.length ≤ 100) := by
  constructor
  · intro cands html url s h
    unfold extractAuthor at h
    split at h
    · exact Option.noConfusion h
    · split at h
      · rename_i heq
        exact Or.inl (heq.trans h)
      · split at h
        · exact Option.noConfusion h
        · split at h
          · rename_i a heq
            refine Or.inr ?_
            obtain ⟨raw, _, hclean⟩ := Option.bind_eq_some.mp heq
            exact ⟨raw, hclean.trans h⟩
          · split at h
            · rename_i a heq
              refine Or.inr ?_
              obtain ⟨raw, _, hclean⟩ := Option.bind_eq_some.mp heq
              exact ⟨raw, hclean.trans h⟩
            · obtain ⟨raw, _, hclean⟩ := Option.bind_eq_some.mp h
              exact Or.inr ⟨raw, hclean⟩
  · intro raw s h
    unfold cleanAuthorName at h
    split at h
    · exact Option.noConfusion h
    · split at h
      · exact Option.noConfusion h
      · split at h
        · exact Option.noConfusion h
        · rename_i hurl hlen
          push_neg at hurl hlen
          cases Option.some.inj h
          exact ⟨rfl, hurl.1, hurl.2, hlen.1, hlen.2⟩

/-- Enrichment preservation is reflexive. -/
theorem enrichmentUnchanged_refl (c : Capture) : enrichmentUnchanged c c := by
  unfold enrichmentUnchanged
  exact ⟨rfl, rfl, rfl, rfl, rfl, rfl, rfl, rfl, rfl, rfl, rfl, rfl, rfl⟩

/-- The `processing`-status write touches no enrichment field. -/
theorem enrichmentUnchanged_processing (c0 c : Capture)
    (h : enrichmentUnchanged c0 c) :
    enrichmentUnchanged c0 (applyUpdate c processingPayload) := by
  simpa [enrichmentUnchanged, applyUpdate, processingPayload] using h

/-- The `error`-status write touches no enrichment field. -/
theorem enrichmentUnchanged_error (c0 c : Capture) (msg : String)
    (h : enrichmentUnchanged c0 c) :
    enrichmentUnchanged c0 (applyUpdate c (errorPayload msg)) := by
  simpa [enrichmentUnchanged, applyUpdate, errorPayload] using h

/-- **C1.** For every capture whose record-fetch and final persistence write
    succeed, `processCapture` returns `{success: true}` and the final write
    sets status to `'completed'` — the environment is otherwise arbitrary,
    so the scrape, AI-analysis and embedding oracles may all have failed. -/
theorem processCapture_success_completes (env : Env) (c : Capture)
    (hconf : env.supabaseConfigured = true) (hfetch : env.fetchOk = true)
    (hrec : env.dbRecord = some c) (hfw : env.finalWriteOk = true) :
    (processCapture env).success = true ∧
    (processCapture env).writes.getLast? = some (finalPayload env c, true) ∧
    (finalPayload env c).status = some "completed" := by
  simp [processCapture, hconf, hfetch, hrec, hfw, finalPayload]

/-- Witness: a run whose scrape failed and whose AI/embedding stages are
    unconfigured still returns success with a `completed` final write. -/
theorem processCapture_success_completes_witness :
    (processCapture baseEnv).success = true ∧
    (finalPayload baseEnv baseCapture).status = some "completed" :=
  ⟨(processCapture_success_completes baseEnv baseCapture rfl rfl rfl rfl).1,
   (processCapture_success_completes baseEnv baseCapture rfl rfl rfl rfl).2.2⟩

/-- Runs whose applied writes are all status-only (the `processing` write or
    an `error` write) leave every enrichment field unchanged. -/
theorem applyWrites_statusOnly (ws : List (UpdatePayload × Bool)) :
    ∀ c0 c : Capture, enrichmentUnchanged c0 c →
      (∀ p ∈ ws, p.2 = true → p.1 = processingPayload ∨ ∃ m, p.1 = errorPayload m) →
      ∀ c1, applyWrites (some c) ws = some c1 → enrichmentUnchanged c0 c1 := by
  induction ws with
  | nil =>
    intro c0 c hc _ c1 h1
    cases Option.some.inj h1
    exact hc
  | cons p rest ih =>
    intro c0 c hc hshape c1 h1
    obtain ⟨u, b⟩ := p
    cases b with
    | false =>
      have h2 : applyWrites (some c) ((u, false) :: rest) =
          applyWrites (some c) rest := rfl
      rw [h2] at h1
      exact ih c0 c hc (fun q hq hq2 => hshape q (List.mem_cons_of_mem _ hq) hq2)
        c1 h1
    | true =>
      have h2 : applyWrites (some c) ((u, true) :: rest) =
          applyWrites (some (applyUpdate c u)) rest := rfl
      rw [h2] at h1
      rcases hshape (u, true) (List.mem_cons_self _ _) rfl with hu | ⟨m, hu⟩
      · subst hu
        exact ih c0 _ (enrichmentUnchanged_processing c0 c hc)
          (fun q hq hq2 => hshape q (List.mem_cons_of_mem _ hq) hq2) c1 h1
      · subst hu
        exact ih c0 _ (enrichmentUnchanged_error c0 c m hc)
          (fun q hq hq2 => hshape q (List.mem_cons_of_mem _ hq) hq2) c1 h1

/-- **C2.** `processCapture` issues a `status: 'error'` write only when the
    initial record fetch fails or the final persistence write fails; the
    error write carries exactly `status` and `error_message` (set to the
    failure's message, which is also the returned error) and no enrichment
    field, and whatever record state results, its enrichment fields are
    unchanged from before the run. -/
theorem processCapture_error_only_fatal (env : Env) (c0 : Capture)
    (hconf : env.supabaseConfigured = true) (hrec : env.dbRecord = some c0)
    (herr : ∃ p ∈ (processCapture env).writes, p.1.status = some "error") :
    (env.fetchOk = false ∨ env.finalWriteOk = false) ∧
    (∃ msg, (processCapture env).error = some msg ∧
      (errorPayload msg, env.errorWriteOk) ∈ (processCapture env).writes) ∧
    (∀ c1, (processCapture env).record = some c1 → enrichmentUnchanged c0 c1) := by
  by_cases hfo : env.fetchOk = true
  · by_cases hfw : env.finalWriteOk = true
    · exfalso
      obtain ⟨p, hp, hps⟩ := herr
      have hw : (processCapture env).writes =
          [(processingPayload, env.processingWriteOk), (finalPayload env c0, true)] := by
        simp [processCapture, hconf, hfo, hrec, hfw]
      rw [hw] at hp
      rcases List.mem_cons.mp hp with rfl | hp2
      · have hred : (processingPayload, env.processingWriteOk).1.status =
            some "processing" := rfl
        rw [hred] at hps
        exact (by decide : ¬(some "processing" = some ("error" : String))) hps
      rcases List.mem_cons.mp hp2 with rfl | hp3
      · simp [finalPayload] at hps
      · exact absurd hp3 (List.not_mem_nil _)
    · replace hfw : env.finalWriteOk = false := by
        simpa using hfw
      have hw : processCapture env =
          fatalOutcome env ("Failed to update capture: " ++ env.updateErrMsg)
            [(processingPayload, env.processingWriteOk), (finalPayload env c0, false)]
            (embedInputOf env c0) := by
        simp [processCapture, hconf, hfo, hrec, hfw]
      refine ⟨Or.inr hfw, ⟨"Failed to update capture: " ++ env.updateErrMsg, ?_, ?_⟩, ?_⟩
      · rw [hw]
        rfl
      · rw [hw]
        simp [fatalOutcome]
      · intro c1 h1
        rw [hw] at h1
        simp only [fatalOutcome, hrec] at h1
        refine applyWrites_statusOnly _ c0 c0 (enrichmentUnchanged_refl c0) ?_ c1 h1
        intro q hq hq2
        rcases List.mem_cons.mp hq with rfl | hq'
        · exact Or.inl rfl
        rcases List.mem_cons.mp hq' with rfl | hq''
        · exact absurd hq2 (by simp)
        rcases List.mem_cons.mp hq'' with rfl | hq3
        · exact Or.inr ⟨_, rfl⟩
        · exact absurd hq3 (List.not_mem_nil _)
  · replace hfo : env.fetchOk = false := by
      simpa using hfo
    have hw : processCapture env =
        fatalOutcome env ("Failed to fetch capture: " ++ env.fetchErrMsg) [] none := by
      simp [processCapture, hconf, hfo]
    refine ⟨Or.inl hfo, ⟨"Failed to fetch capture: " ++ env.fetchErrMsg, ?_, ?_⟩, ?_⟩
    · rw [hw]
      rfl
    · rw [hw]
      simp [fatalOutcome]
    · intro c1 h1
      rw [hw] at h1
      simp only [fatalOutcome, hrec] at h1
      refine applyWrites_statusOnly _ c0 c0 (enrichmentUnchanged_refl c0) ?_ c1 h1
      intro q hq hq2
      rcases List.mem_cons.mp hq with rfl | hq'
      · exact Or.inr ⟨_, rfl⟩
      · exact absurd hq' (List.not_mem_nil _)

/-- Witness: a failed record fetch is one of the two fatal conditions and
    leaves all prior enrichment in place. -/
theorem processCapture_error_only_fatal_witness :
    (fetchFailEnv.fetchOk = false ∨ fetchFailEnv.finalWriteOk = false) ∧
    (processCapture fetchFailEnv).error =
      some "Failed to fetch capture: storage unreachable" := by
  exact ⟨(processCapture_error_only_fatal fetchFailEnv baseCapture rfl rfl
    (by decide)).1, rfl⟩

/-- **C3, counterexample.** The claim requires every returned run — including
    one with an unconfigured store — to leave the capture at `completed` or
    `error`; but with Supabase unconfigured `processCapture` returns without
    issuing any write, and a pending capture stays at `pending`. -/
theorem processCapture_unconfigured_leaves_pending :
    (processCapture unconfiguredEnv).writes = [] ∧
    (processCapture unconfiguredEnv).record.map Capture.status = some "pending" ∧
    ("pending" : String) ≠ "completed" ∧ ("pending" : String) ≠ "error" := by
  decide

/-- **C3, amended.** When the store is configured, the record exists, and
    the status write that ends the run succeeds — the final write on the
    normal path, or the error write on either fatal path (fetch failure, or
    a failed final write followed by a successful error write) — the capture
    ends at `completed` or `error`, never `pending` or `processing`. -/
theorem processCapture_terminal_status (env : Env) (c0 : Capture)
    (hconf : env.supabaseConfigured = true) (hrec : env.dbRecord = some c0)
    (hend : (env.fetchOk = true ∧ env.finalWriteOk = true) ∨
      env.errorWriteOk = true) :
    ∃ c1, (processCapture env).record = some c1 ∧
      (c1.status = "completed" ∨ c1.status = "error") := by
  by_cases hfo : env.fetchOk = true
  · by_cases hfw : env.finalWriteOk = true
    · have hw : (processCapture env).record =
          applyWrites env.dbRecord
            [(processingPayload, env.processingWriteOk), (finalPayload env c0, true)] := by
        simp [processCapture, hconf, hfo, hrec, hfw]
      rw [hw, hrec]
      cases hpk : env.processingWriteOk with
      | false =>
        refine ⟨applyUpdate c0 (finalPayload env c0), rfl, Or.inl ?_⟩
        simp [applyUpdate, finalPayload]
      | true =>
        refine ⟨applyUpdate (applyUpdate c0 processingPayload) (finalPayload env c0),
          rfl, Or.inl ?_⟩
        simp [applyUpdate, finalPayload]
    · replace hfw : env.finalWriteOk = false := by
        simpa using hfw
      have hew : env.errorWriteOk = true := by
        rcases hend with ⟨_, h⟩ | h
        · rw [hfw] at h
          exact Bool.noConfusion h
        · exact h
      have hw : (processCapture env).record =
          applyWrites env.dbRecord
            [(processingPayload, env.processingWriteOk),
             (finalPayload env c0, false),
             (errorPayload ("Failed to update capture: " ++ env.updateErrMsg),
               env.errorWriteOk)] := by
        simp [processCapture, hconf, hfo, hrec, hfw, fatalOutcome]
      rw [hw, hrec, hew]
      cases hpk : env.processingWriteOk with
      | false =>
        refine ⟨applyUpdate c0
          (errorPayload ("Failed to update capture: " ++ env.updateErrMsg)),
          rfl, Or.inr ?_⟩
        simp [applyUpdate, errorPayload]
      | true =>
        refine ⟨applyUpdate (applyUpdate c0 processingPayload)
          (errorPayload ("Failed to update capture: " ++ env.updateErrMsg)),
          rfl, Or.inr ?_⟩
        simp [applyUpdate, errorPayload]
  · replace hfo : env.fetchOk = false := by
      simpa using hfo
    have hew : env.errorWriteOk = true := by
      rcases hend with ⟨h, _⟩ | h
      · rw [hfo] at h
        exact Bool.noConfusion h
      · exact h
    have hw : (processCapture env).record =
        applyWrites env.dbRecord
          [(errorPayload ("Failed to fetch capture: " ++ env.fetchErrMsg),
            env.errorWriteOk)] := by
      simp [processCapture, hconf, hfo, fatalOutcome]
    rw [hw, hrec, hew]
    refine ⟨applyUpdate c0
      (errorPayload ("Failed to fetch capture: " ++ env.fetchErrMsg)), rfl, Or.inr ?_⟩
    simp [applyUpdate, errorPayload]

/-- Witness: both fatal paths end at a terminal status through a succeeding
    error write — a failing fetch, and a failing final write followed by a
    successful error write. -/
theorem processCapture_terminal_status_witness :
    (∃ c1, (processCapture fetchFailEnv).record = some c1 ∧
      (c1.status = "completed" ∨ c1.status = "error")) ∧
    (∃ c1, (processCapture finalFailEnv).record = some c1 ∧
      (c1.status = "completed" ∨ c1.status = "error")) :=
  ⟨processCapture_terminal_status fetchFailEnv baseCapture rfl rfl (Or.inr rfl),
   processCapture_terminal_status finalFailEnv baseCapture rfl rfl (Or.inr rfl)⟩

/-- **C4, counterexample.** The claim says a re-processed capture with a
    failing scrape keeps its prior content, author and image values; but the
    final update always includes `content`/`author_name`/`image_url`
    (`null` on failure), so the run succeeds and the prior values are
    overwritten with null. -/
theorem processCapture_failed_scrape_overwrites :
    baseCapture.content = some "old content" ∧
    baseCapture.authorName = some "Old Author" ∧
    baseCapture.imageUrl = some "https://img.example.com/old.png" ∧
    baseEnv.scrape.success = false ∧
    (processCapture baseEnv).success = true ∧
    (processCapture baseEnv).record.map Capture.content = some none ∧
    (processCapture baseEnv).record.map Capture.authorName = some none ∧
    (processCapture baseEnv).record.map Capture.imageUrl = some none := by
  decide

/-- Outside the embedding field, `builtUpdates` coincides with
    `preEmbedUpdates`. -/
theorem builtUpdates_nonembedding (env : Env) (c : Capture) :
    (builtUpdates env c).content = (preEmbedUpdates env c).content ∧
    (builtUpdates env c).summary = (preEmbedUpdates env c).summary ∧
    (builtUpdates env c).category = (preEmbedUpdates env c).category ∧
    (builtUpdates env c).tags = (preEmbedUpdates env c).tags ∧
    (builtUpdates env c).qualityScore = (preEmbedUpdates env c).qualityScore ∧
    (builtUpdates env c).actionabilityScore =
      (preEmbedUpdates env c).actionabilityScore ∧
    (builtUpdates env c).displayTitle = (preEmbedUpdates env c).displayTitle ∧
    (builtUpdates env c).keyTakeaways = (preEmbedUpdates env c).keyTakeaways ∧
    (builtUpdates env c).actionItems = (preEmbedUpdates env c).actionItems ∧
    (builtUpdates env c).sourcePlatform = (preEmbedUpdates env c).sourcePlatform ∧
    (builtUpdates env c).authorName = (preEmbedUpdates env c).authorName ∧
    (builtUpdates env c).imageUrl = (preEmbedUpdates env c).imageUrl ∧
    (builtUpdates env c).processedAt = (preEmbedUpdates env c).processedAt := by
  unfold builtUpdates
  split
  · split <;>
      exact ⟨rfl, rfl, rfl, rfl, rfl, rfl, rfl, rfl, rfl, rfl, rfl, rfl, rfl⟩
  · exact ⟨rfl, rfl, rfl, rfl, rfl, rfl, rfl, rfl, rfl, rfl, rfl, rfl, rfl⟩

/-- No stage before the embedding stage writes the embedding field. -/
theorem preEmbedUpdates_embedding (env : Env) (c : Capture) :
    (preEmbedUpdates env c).embedding = none := by
  unfold preEmbedUpdates
  rcases aiContribution env c (scrapedContent env c).1 with _ | ⟨a, ins⟩ <;> rfl

/-- When the AI stage does not contribute, the update carries none of the
    eight AI fields. -/
theorem preEmbedUpdates_ai_skip (env : Env) (c : Capture)
    (hai : aiContribution env c (scrapedContent env c).1 = none) :
    preEmbedUpdates env c = baseUpdates env c := by
  unfold preEmbedUpdates
  rw [hai]

/-- When the embedding stage does not contribute, the update carries no
    embedding field. -/
theorem builtUpdates_emb_skip (env : Env) (c : Capture)
    (h : env.embConfigured = false ∨ env.embedResult = none) :
    builtUpdates env c = preEmbedUpdates env c := by
  unfold builtUpdates
  rcases h with h | h
  · rw [h]
    simp
  · cases hc : env.embConfigured
    · simp
    · rw [h]
      simp

/-- The AI stage does not change which always-present fields the update
    carries. -/
theorem preEmbedUpdates_always_present (env : Env) (c : Capture) :
    (preEmbedUpdates env c).content = (baseUpdates env c).content ∧
    (preEmbedUpdates env c).sourcePlatform = (baseUpdates env c).sourcePlatform ∧
    (preEmbedUpdates env c).authorName = (baseUpdates env c).authorName ∧
    (preEmbedUpdates env c).imageUrl = (baseUpdates env c).imageUrl ∧
    (preEmbedUpdates env c).processedAt = (baseUpdates env c).processedAt := by
  unfold preEmbedUpdates
  rcases aiContribution env c (scrapedContent env c).1 with _ | ⟨a, ins⟩ <;>
    exact ⟨rfl, rfl, rfl, rfl, rfl⟩

/-- **C4, amended.** When the AI stage or the embedding stage fails (or is
    skipped), the fields that stage would populate are omitted from the
    final update and keep their previously persisted values; but the final
    update always includes `content`, `source_platform`, `author_name`,
    `image_url` and `processed_at`, so a failing scrape / author / image
    sub-stage overwrites the prior values of those fields (with `null` for a
    failed stage) rather than leaving them unchanged. -/
theorem processCapture_substage_frame (env : Env) (c0 : Capture)
    (hconf : env.supabaseConfigured = true) (hfetch : env.fetchOk = true)
    (hrec : env.dbRecord = some c0) (hfw : env.finalWriteOk = true) :
    (aiContribution env c0 (scrapedContent env c0).1 = none →
      (finalPayload env c0).summary = none ∧ (finalPayload env c0).category = none ∧
      (finalPayload env c0).tags = none ∧ (finalPayload env c0).qualityScore = none ∧
      (finalPayload env c0).actionabilityScore = none ∧
      (finalPayload env c0).displayTitle = none ∧
      (finalPayload env c0).keyTakeaways = none ∧
      (finalPayload env c0).actionItems = none ∧
      ∀ c1, (processCapture env).record = some c1 →
        c1.summary = c0.summary ∧ c1.category = c0.category ∧ c1.tags = c0.tags ∧
        c1.qualityScore = c0.qualityScore ∧
        c1.actionabilityScore = c0.actionabilityScore ∧
        c1.displayTitle = c0.displayTitle ∧ c1.keyTakeaways = c0.keyTakeaways ∧
        c1.actionItems = c0.actionItems) ∧
    ((env.embConfigured = false ∨ env.embedResult = none) →
      (finalPayload env c0).embedding = none ∧
      ∀ c1, (processCapture env).record = some c1 → c1.embedding = c0.embedding) ∧
    ((finalPayload env c0).content ≠ none ∧
     (finalPayload env c0).sourcePlatform ≠ none ∧
     (finalPayload env c0).authorName ≠ none ∧
     (finalPayload env c0).imageUrl ≠ none ∧
     (finalPayload env c0).processedAt ≠ none) := by
  have hb := builtUpdates_nonembedding env c0
  have hap := preEmbedUpdates_always_present env c0
  have hrw : (processCapture env).record =
      applyWrites (some c0)
        [(processingPayload, env.processingWriteOk), (finalPayload env c0, true)] := by
    simp [processCapture, hconf, hfetch, hrec, hfw]
  refine ⟨?_, ?_, ?_⟩
  · intro hai
    have hpre := preEmbedUpdates_ai_skip env c0 hai
    have hsum : (finalPayload env c0).summary = none := by
      rw [show (finalPayload env c0).summary = (preEmbedUpdates env c0).summary
        from hb.2.1, hpre]
      rfl
    have hcat : (finalPayload env c0).category = none := by
      rw [show (finalPayload env c0).category = (preEmbedUpdates env c0).category
        from hb.2.2.1, hpre]
      rfl
    have htags : (finalPayload env c0).tags = none := by
      rw [show (finalPayload env c0).tags = (preEmbedUpdates env c0).tags
        from hb.2.2.2.1, hpre]
      rfl
    have hq : (finalPayload env c0).qualityScore = none := by
      rw [show (finalPayload env c0).qualityScore =
        (preEmbedUpdates env c0).qualityScore from hb.2.2.2.2.1, hpre]
      rfl
    have hact : (finalPayload env c0).actionabilityScore = none := by
      rw [show (finalPayload env c0).actionabilityScore =
        (preEmbedUpdates env c0).actionabilityScore from hb.2.2.2.2.2.1, hpre]
      rfl
    have hdt : (finalPayload env c0).displayTitle = none := by
      rw [show (finalPayload env c0).displayTitle =
        (preEmbedUpdates env c0).displayTitle from hb.2.2.2.2.2.2.1, hpre]
      rfl
    have hkt : (finalPayload env c0).keyTakeaways = none := by
      rw [show (finalPayload env c0).keyTakeaways =
        (preEmbedUpdates env c0).keyTakeaways from hb.2.2.2.2.2.2.2.1, hpre]
      rfl
    have hit : (finalPayload env c0).actionItems = none := by
      rw [show (finalPayload env c0).actionItems =
        (preEmbedUpdates env c0).actionItems from hb.2.2.2.2.2.2.2.2.1, hpre]
      rfl
    refine ⟨hsum, hcat, htags, hq, hact, hdt, hkt, hit, ?_⟩
    intro c1 h1
    rw [hrw] at h1
    cases hpk : env.processingWriteOk with
    | false =>
      rw [hpk] at h1
      have h2 : applyWrites (some c0)
          [(processingPayload, false), (finalPayload env c0, true)] =
          some (applyUpdate c0 (finalPayload env c0)) := rfl
      rw [h2] at h1
      cases Option.some.inj h1
      simp [applyUpdate, hsum, hcat, htags, hq, hact, hdt, hkt, hit]
    | true =>
      rw [hpk] at h1
      have h2 : applyWrites (some c0)
          [(processingPayload, true), (finalPayload env c0, true)] =
          some (applyUpdate (applyUpdate c0 processingPayload)
            (finalPayload env c0)) := rfl
      rw [h2] at h1
      cases Option.some.inj h1
      simp [applyUpdate, processingPayload, hsum, hcat, htags, hq, hact, hdt,
        hkt, hit]
  · intro hemb
    have hbe := builtUpdates_emb_skip env c0 hemb
    have he : (finalPayload env c0).embedding = none := by
      rw [show (finalPayload env c0).embedding = (builtUpdates env c0).embedding
        from rfl, hbe]
      exact preEmbedUpdates_embedding env c0
    refine ⟨he, ?_⟩
    intro c1 h1
    rw [hrw] at h1
    cases hpk : env.processingWriteOk with
    | false =>
      rw [hpk] at h1
      have h2 : applyWrites (some c0)
          [(processingPayload, false), (finalPayload env c0, true)] =
          some (applyUpdate c0 (finalPayload env c0)) := rfl
      rw [h2] at h1
      cases Option.some.inj h1
      simp [applyUpdate, he]
    | true =>
      rw [hpk] at h1
      have h2 : applyWrites (some c0)
          [(processingPayload, true), (finalPayload env c0, true)] =
          some (applyUpdate (applyUpdate c0 processingPayload)
            (finalPayload env c0)) := rfl
      rw [h2] at h1
      cases Option.some.inj h1
      simp [applyUpdate, processingPayload, he]
  · refine ⟨?_, ?_, ?_, ?_, ?_⟩
    · rw [show (finalPayload env c0).content = (preEmbedUpdates env c0).content
        from hb.1, hap.1]
      simp [baseUpdates]
    · rw [show (finalPayload env c0).sourcePlatform =
        (preEmbedUpdates env c0).sourcePlatform from hb.2.2.2.2.2.2.2.2.2.1,
        hap.2.1]
      simp [baseUpdates]
    · rw [show (finalPayload env c0).authorName =
        (preEmbedUpdates env c0).authorName from hb.2.2.2.2.2.2.2.2.2.2.1,
        hap.2.2.1]
      simp [baseUpdates]
    · rw [show (finalPayload env c0).imageUrl =
        (preEmbedUpdates env c0).imageUrl from hb.2.2.2.2.2.2.2.2.2.2.2.1,
        hap.2.2.2.1]
      simp [baseUpdates]
    · rw [show (finalPayload env c0).processedAt =
        (preEmbedUpdates env c0).processedAt from hb.2.2.2.2.2.2.2.2.2.2.2.2,
        hap.2.2.2.2]
      simp [baseUpdates]

/-- Witness: in `baseEnv` (failed scrape, AI and embeddings unconfigured)
    the run keeps the prior summary/tags/embedding, omits all AI and
    embedding fields, and still writes the always-present fields. -/
theorem processCapture_substage_frame_witness :
    (finalPayload baseEnv baseCapture).summary = none ∧
    (finalPayload baseEnv baseCapture).embedding = none ∧
    (finalPayload baseEnv baseCapture).content ≠ none ∧
    (processCapture baseEnv).record.map Capture.summary =
      some baseCapture.summary ∧
    (processCapture baseEnv).record.map Capture.embedding =
      some baseCapture.embedding := by
  have h := processCapture_substage_frame baseEnv baseCapture rfl rfl rfl rfl
  have hA := h.1 (by decide)
  have hB := h.2.1 (Or.inl rfl)
  have h1 : (processCapture baseEnv).record =
      some (applyUpdate (applyUpdate baseCapture processingPayload)
        (finalPayload baseEnv baseCapture)) := by decide
  refine ⟨hA.1, hB.1, h.2.2.1, ?_, ?_⟩
  · rw [h1, Option.map_some']
    exact congrArg some (hA.2.2.2.2.2.2.2.2 _ h1).1
  · rw [h1, Option.map_some']
    exact congrArg some (hB.2 _ h1)

/-- **C5, counterexample.** The claim says two runs differing only in the AI
    analysis results submit identical text to the embedding backend; but
    `generateCaptureEmbedding` composes its text from `{...capture,
    ...updates}`, which carries the AI summary, so the submitted texts
    differ. -/
theorem embedInput_depends_on_ai :
    aiEnvB = { aiEnvA with aiOutcome := some (aiOutcomeB, ⟨[], []⟩) } ∧
    aiOutcomeB = { aiOutcomeA with summary := "summary two" } ∧
    (processCapture aiEnvA).embedInput ≠ (processCapture aiEnvB).embedInput := by
  refine ⟨rfl, rfl, ?_⟩
  decide

/-- `embedText` reads only the title, summary, category, tags and content
    fields of the merged capture. -/
theorem embedText_congr (c1 c2 : Capture) (ht : c1.title = c2.title)
    (hs : c1.summary = c2.summary) (hc : c1.category = c2.category)
    (hg : c1.tags = c2.tags) (hn : c1.content = c2.content) :
    embedText c1 = embedText c2 := by
  unfold embedText
  rw [ht, hs, hc, hg, hn]

/-- The text submitted to the embedding backend is unchanged when the AI
    outcome varies only in scores, display title, or insights. -/
theorem embedInputOf_ai_congr (env : Env) (cap : Capture)
    (a1 a2 : AiOutcome) (i1 i2 : InsightsOutcome)
    (hs : a1.summary = a2.summary) (hc : a1.category = a2.category)
    (ht : a1.tags = a2.tags) :
    embedInputOf { env with aiOutcome := some (a1, i1) } cap =
      embedInputOf { env with aiOutcome := some (a2, i2) } cap := by
  obtain ⟨conf, dbr, fok, fmsg, pok, scr, cands, imf, ims, aic, aio, embc,
    embr, fwok, umsg, ewok, nw⟩ := env
  cases embc with
  | false => rfl
  | true =>
    refine congrArg some ?_
    by_cases hA : aic = true ∧
        ((scrapedContent (Env.mk conf dbr fok fmsg pok scr cands imf ims aic
          (some (a1, i1)) true embr fwok umsg ewok nw) cap).1 ≠ "" ∨
          jsTruthy cap.title = true)
    · have hai1 : aiContribution (Env.mk conf dbr fok fmsg pok scr cands imf
          ims aic (some (a1, i1)) true embr fwok umsg ewok nw) cap
          (scrapedContent (Env.mk conf dbr fok fmsg pok scr cands imf ims aic
            (some (a1, i1)) true embr fwok umsg ewok nw) cap).1 =
          some (a1, i1) := by
        unfold aiContribution
        exact if_pos hA
      have hai2 : aiContribution (Env.mk conf dbr fok fmsg pok scr cands imf
          ims aic (some (a2, i2)) true embr fwok umsg ewok nw) cap
          (scrapedContent (Env.mk conf dbr fok fmsg pok scr cands imf ims aic
            (some (a2, i2)) true embr fwok umsg ewok nw) cap).1 =
          some (a2, i2) := by
        unfold aiContribution
        exact if_pos hA
      unfold preEmbedUpdates
      rw [hai1, hai2]
      refine embedText_congr _ _ rfl ?_ ?_ ?_ rfl
      · exact congrArg some hs
      · exact congrArg some hc
      · exact congrArg some ht
    · have hai1 : aiContribution (Env.mk conf dbr fok fmsg pok scr cands imf
          ims aic (some (a1, i1)) true embr fwok umsg ewok nw) cap
          (scrapedContent (Env.mk conf dbr fok fmsg pok scr cands imf ims aic
            (some (a1, i1)) true embr fwok umsg ewok nw) cap).1 = none := by
        unfold aiContribution
        exact if_neg hA
      have hai2 : aiContribution (Env.mk conf dbr fok fmsg pok scr cands imf
          ims aic (some (a2, i2)) true embr fwok umsg ewok nw) cap
          (scrapedContent (Env.mk conf dbr fok fmsg pok scr cands imf ims aic
            (some (a2, i2)) true embr fwok umsg ewok nw) cap).1 = none := by
        unfold aiContribution
        exact if_neg hA
      unfold preEmbedUpdates
      rw [hai1, hai2]
      rfl

/-- **C5, amended.** The embedding input is composed after content analysis
    from the merged record, so it depends on the analysis summary, category
    and tags; two runs whose AI outcomes agree on those three fields (but
    may differ in scores, display title and insights) submit identical text
    to the embedding backend.  Both stages' outputs are still merged only at
    the single final write: a successful run issues exactly the
    `processing`-status write and one final merged write. -/
theorem embedInput_independent_of_nontext_fields (env : Env) (c0 : Capture)
    (a1 a2 : AiOutcome) (i1 i2 : InsightsOutcome)
    (hs : a1.summary = a2.summary) (hc : a1.category = a2.category)
    (ht : a1.tags = a2.tags) :
    (processCapture { env with aiOutcome := some (a1, i1) }).embedInput =
      (processCapture { env with aiOutcome := some (a2, i2) }).embedInput ∧
    (env.supabaseConfigured = true → env.fetchOk = true →
      env.dbRecord = some c0 → env.finalWriteOk = true →
      (processCapture env).writes =
        [(processingPayload, env.processingWriteOk), (finalPayload env c0, true)]) := by
  constructor
  · obtain ⟨conf, dbr, fok, fmsg, pok, scr, cands, imf, ims, aic, aio, embc,
      embr, fwok, umsg, ewok, nw⟩ := env
    cases conf with
    | false => rfl
    | true =>
      cases fok with
      | false => rfl
      | true =>
        cases dbr with
        | none => rfl
        | some cap =>
          cases fwok with
          | true =>
            exact embedInputOf_ai_congr
              (Env.mk true (some cap) true fmsg pok scr cands imf ims aic aio
                embc embr true umsg ewok nw) cap a1 a2 i1 i2 hs hc ht
          | false =>
            exact embedInputOf_ai_congr
              (Env.mk true (some cap) true fmsg pok scr cands imf ims aic aio
                embc embr false umsg ewok nw) cap a1 a2 i1 i2 hs hc ht
  · intro hconf hfetch hrec hfw
    simp [processCapture, hconf, hfetch, hrec, hfw]

/-- Witness: with equal summary/category/tags the two runs submit the same
    text, and the successful run issues exactly two writes. -/
theorem embedInput_independent_witness :
    (processCapture { aiEnvA with aiOutcome := some (aiOutcomeA, ⟨[], []⟩) }).embedInput =
      (processCapture { aiEnvA with
        aiOutcome := some ({ aiOutcomeA with quality := 1 }, ⟨["x"], []⟩) }).embedInput ∧
    (processCapture aiEnvA).writes =
      [(processingPayload, true), (finalPayload aiEnvA baseCapture, true)] := by
  have h := embedInput_independent_of_nontext_fields aiEnvA baseCapture
    aiOutcomeA { aiOutcomeA with quality := 1 } ⟨[], []⟩ ⟨["x"], []⟩ rfl rfl rfl
  exact ⟨h.1, h.2 rfl rfl rfl rfl⟩

/-- **C6, counterexample.** The claim says persisted tag lists are always
    lowercase and duplicate-free, including tags parsed from an arbitrary AI
    response; but `categorize` returns the parsed object verbatim (no
    lowercasing or deduplication), and the orchestrator persists
    `aiResult.tags` as-is: a response carrying `["Foo", "Foo"]` is persisted
    unchanged, non-lowercase and duplicated. -/
theorem tags_not_normalized :
    categorizeTags badTagsResp = some ["Foo", "Foo"] ∧
    dupTagsAi.tags = ["Foo", "Foo"] ∧
    (processCapture dupTagsEnv).record.map Capture.tags =
      some (some ["Foo", "Foo"]) ∧
    ¬(∀ t ∈ (["Foo", "Foo"] : List String), strToLower t = t) ∧
    ¬(["Foo", "Foo"] : List String).Nodup := by
  refine ⟨by decide, rfl, by decide, by decide, by decide⟩

/-- **C6, amended.** Tag lists are persisted verbatim from the AI outcome:
    when the AI stage contributes tags `a.tags`, the final update carries
    exactly `a.tags` and the stored record ends with exactly `a.tags` — no
    lowercasing and no deduplication is applied anywhere in the pipeline
    (normalization is only requested of the model in the prompt). -/
theorem tags_persisted_verbatim (env : Env) (c0 : Capture) (a : AiOutcome)
    (ins : InsightsOutcome)
    (hconf : env.supabaseConfigured = true) (hfetch : env.fetchOk = true)
    (hrec : env.dbRecord = some c0) (hfw : env.finalWriteOk = true)
    (hai : aiContribution env c0 (scrapedContent env c0).1 = some (a, ins)) :
    (finalPayload env c0).tags = some (some a.tags) ∧
    ∀ c1, (processCapture env).record = some c1 → c1.tags = some a.tags := by
  have hpre : (preEmbedUpdates env c0).tags = some (some a.tags) := by
    unfold preEmbedUpdates
    rw [hai]
  have hfin : (finalPayload env c0).tags = some (some a.tags) := by
    rw [show (finalPayload env c0).tags = (preEmbedUpdates env c0).tags
      from (builtUpdates_nonembedding env c0).2.2.2.1, hpre]
  refine ⟨hfin, ?_⟩
  intro c1 h1
  have hrw : (processCapture env).record =
      applyWrites (some c0)
        [(processingPayload, env.processingWriteOk), (finalPayload env c0, true)] := by
    simp [processCapture, hconf, hfetch, hrec, hfw]
  rw [hrw] at h1
  cases hpk : env.processingWriteOk with
  | false =>
    rw [hpk] at h1
    have h2 : applyWrites (some c0)
        [(processingPayload, false), (finalPayload env c0, true)] =
        some (applyUpdate c0 (finalPayload env c0)) := rfl
    rw [h2] at h1
    cases Option.some.inj h1
    simp [applyUpdate, hfin]
  | true =>
    rw [hpk] at h1
    have h2 : applyWrites (some c0)
        [(processingPayload, true), (finalPayload env c0, true)] =
        some (applyUpdate (applyUpdate c0 processingPayload)
          (finalPayload env c0)) := rfl
    rw [h2] at h1
    cases Option.some.inj h1
    simp [applyUpdate, hfin]

/-- Witness: the duplicate non-lowercase tag outcome is persisted verbatim. -/
theorem tags_persisted_verbatim_witness :
    (finalPayload dupTagsEnv baseCapture).tags = some (some ["Foo", "Foo"]) ∧
    (processCapture dupTagsEnv).record.map Capture.tags =
      some (some ["Foo", "Foo"]) := by
  have h := tags_persisted_verbatim dupTagsEnv baseCapture dupTagsAi ⟨[], []⟩
    rfl rfl rfl rfl (by decide)
  have h1 : (processCapture dupTagsEnv).record =
      some (applyUpdate (applyUpdate baseCapture processingPayload)
        (finalPayload dupTagsEnv baseCapture)) := by decide
  refine ⟨h.1, ?_⟩
  rw [h1, Option.map_some']
  exact congrArg some (h.2 _ h1)

/-- Witness: a raw name with doubled whitespace is collapsed, kept, and
    satisfies the sanitization guarantees of `cleanAuthorName`. -/
theorem extractAuthor_sanitization_witness :
    cleanAuthorName "Jane  Doe" = some "Jane Doe" ∧
    ("Jane Doe" : String) = cleanedForm "Jane  Doe" ∧
    ¬strStartsWith "Jane Doe" "http://" ∧
    2 ≤ ("Jane Doe" : String).length ∧ ("Jane Doe" : String).length ≤ 100 := by
  have h := extractAuthor_sanitization.2 "Jane  Doe" "Jane Doe" (by decide)
  exact ⟨by decide, h.1, h.2.1, h.2.2.2.1, h.2.2.2.2⟩
